import Mathlib

/-!
Verification development for the go-ipfs-p2p port-forwarding client
(package go_ipfs_p2p, file client.go: P2pClient and its operations).

The embedding models the client state and its public operations as pure
Lean functions.  The overlay-network collaborator (multiaddr parsing,
peer-info decoding, DNS resolution, stream opening, dialing, socket
binding) is modelled as a record of pure functions, `NetEnv`: the Go code
only consumes these through narrow interfaces, so every theorem
quantifies over the environment and pins down only the calls the claim
needs.  A Go `nil`-pointer dereference (a runtime panic) is modelled as
the error value `Err.nilPanic`; the deferred `recover()` in `Forward` is
modelled explicitly where it is armed.  Machine state that the claims do
not observe (the peerstore address book, the DHT) is not tracked.
-/

/-- Error kinds.  Constructors carrying a string keep the text the Go code
or its collaborator library would put in the error.  `clientClosed` is the
error kind the specification names for operations on a destroyed client;
no operation of the code ever constructs it. -/
inductive Err where
  /-- "peer id cannot be empty" (client.go, Forward). -/
  | emptyPeerID : Err
  /-- an error returned by ma.NewMultiaddr for the given input string. -/
  | parseError (input : String) : Err
  /-- "fail to resolve the multiaddr:" ++ addr (client.go, parseIpfsAddr). -/
  | resolutionFailed (addr : String) : Err
  /-- "ambiguous multiaddr %s could refer to %s or %s" (parseIpfsAddr). -/
  | ambiguousAddr (addr id1 id2 : String) : Err
  /-- "not enough bootstrap peers" (client.go, Forward). -/
  | noRelayAvailable : Err
  /-- an error produced by the overlay-network collaborator (dial, timeout,
  stream negotiation, connect, resolution transport failure). -/
  | netError (msg : String) : Err
  /-- a local socket bind failure in the collaborator. -/
  | bindError (msg : String) : Err
  /-- a protocol stream-handler registration failure in the collaborator. -/
  | streamError (msg : String) : Err
  /-- a Go nil-pointer dereference: a runtime panic, not a returned error. -/
  | nilPanic : Err
  /-- the error kind the spec requires after destroy(); never produced. -/
  | clientClosed : Err
deriving Repr, DecidableEq

/-- A multiaddr in its canonical string form (the result of String() on a
parsed go-multiaddr value). -/
abbrev Multiaddr := String

/-- peer.AddrInfo: a peer identity plus its known dialable addresses.
An entry of Addrs is none when peer.SplitAddr returned a nil transport
part (a bare /p2p/id multiaddr). -/
structure AddrInfo where
  ID : String
  Addrs : List (Option Multiaddr)
deriving Repr, DecidableEq

/-- One registered forward (a go-ipfs p2p Listener): protocol identifier,
listen address and target address in canonical string form.  The target is
none when the Go value holds a nil multiaddr (see Listen below: a parse
failure is printed but not returned, and the nil target is stored). -/
structure Listener where
  protocol : String
  listenAddress : Multiaddr
  targetAddress : Option Multiaddr
deriving Repr, DecidableEq

/-- The go-ipfs p2p.P2P value: the two independently-locked listener
registries and the set of open raw streams (streams are identified by a
number).  Locking disappears in this sequential model. -/
structure P2P where
  ListenersLocal : List Listener
  ListenersP2P : List Listener
  Streams : List Nat
deriving Repr, DecidableEq

/-- P2pClient.  `p2p = none` and `hostAlive = false` model the nil
references Destroy leaves behind; Peers is the configured bootstrap/relay
peer set. -/
structure P2pClient where
  p2p : Option P2P
  hostAlive : Bool
  Peers : List String
deriving Repr, DecidableEq

/-- The overlay-network collaborator, as a record of pure functions.
parse is ma.NewMultiaddr (none = parse error), returning the canonical
string form; addrInfoFromP2pAddr is peer.AddrInfoFromP2pAddr; resolve is
madns.Resolve under its 10-second context; splitAddr is peer.SplitAddr
(second component empty when the record carries no identity); newStream
is host.NewStream under a timeout given in seconds, returning a stream
identifier; connect is host.Connect; bindLocal is the socket-bind /
stream-setup step of p2p.ForwardLocal for (protocol, bindAddr, peerID);
hostClose is host.Close; perm is rand.Perm. -/
structure NetEnv where
  parse : String → Option Multiaddr
  addrInfoFromP2pAddr : Multiaddr → Except Err AddrInfo
  resolve : Multiaddr → Except Err (List Multiaddr)
  splitAddr : Multiaddr → Option Multiaddr × String
  newStream : String → String → Nat → Except Err Nat
  connect : AddrInfo → Except Err Unit
  bindLocal : String → Multiaddr → String → Except Err Unit
  hostClose : Except Err Unit
  perm : Nat → List Nat

/-- The loop of parseIpfsAddr over the resolved records, accumulating a
peer.AddrInfo: a record without an identity is skipped; the first identity
seen is adopted; a matching identity appends its transport address; a
conflicting identity aborts with the ambiguity error naming both. -/
def mergeAddrs (env : NetEnv) (m : Multiaddr) : List Multiaddr → AddrInfo → Except Err AddrInfo
  | [], info => .ok info
  | a :: rest, info =>
    let ta := (env.splitAddr a).1
    let id := (env.splitAddr a).2
    if id = "" then mergeAddrs env m rest info
    else if info.ID = "" then mergeAddrs env m rest ⟨id, info.Addrs ++ [ta]⟩
    else if info.ID = id then mergeAddrs env m rest ⟨info.ID, info.Addrs ++ [ta]⟩
    else .error (.ambiguousAddr m info.ID id)

/-- client.go parseIpfsAddr: parse the string; if it directly encodes a
peer-and-address pair, return it; otherwise resolve it symbolically and
fold the records with mergeAddrs starting from an empty AddrInfo. -/
def parseIpfsAddr (env : NetEnv) (addr : String) : Except Err AddrInfo :=
  match env.parse addr with
  | none => .error (.parseError addr)
  | some multiaddr =>
    match env.addrInfoFromP2pAddr multiaddr with
    | .ok pi => .ok pi
    | .error _ =>
      match env.resolve multiaddr with
      | .error e => .error e
      | .ok addrs =>
        if addrs = [] then .error (.resolutionFailed multiaddr)
        else mergeAddrs env multiaddr addrs ⟨"", []⟩

/-- Modelled from the spec: convertPeers (the bootstrap helper file of
this repository, not among the given sources) turns the configured peer
strings into AddrInfo values; the spec treats the PeerSet as AddrInfos
supplied at construction, so strings the environment cannot decode are
dropped. -/
def convertPeers (env : NetEnv) (peers : List String) : List AddrInfo :=
  peers.filterMap fun s => (env.parse s).bind fun m => (env.addrInfoFromP2pAddr m).toOption

/-- Modelled from the spec: randomSubsetOfPeers (same missing helper file)
takes up to mx peers in the order of a random permutation of the indices;
on an empty input it returns the empty list whatever the permutation. -/
def randomSubsetOfPeers (env : NetEnv) (ps : List AddrInfo) (mx : Nat) : List AddrInfo :=
  (((env.perm ps.length).filterMap fun i => ps.get? i).take (min mx ps.length))

/-- client.go CheckForwardHealth: resolve /p2p/peerId, then open a stream
to the resolved peer under the protocol with a 30-second timeout and close
it at once.  The second component is the list of streams the call still
holds open when it returns: a stream that opens is closed on the spot
(stream.Close()), so the opened singleton has its element erased.  A nil
Host makes NewStream panic (nilPanic). -/
def CheckForwardHealth (env : NetEnv) (c : P2pClient) (proto peerId : String) :
    Except Err Unit × List Nat :=
  match parseIpfsAddr env ("/p2p/" ++ peerId) with
  | .error e => (.error e, [])
  | .ok targets =>
    if c.hostAlive then
      match env.newStream targets.ID proto 30 with
      | .error e => (.error e, [])
      | .ok s => (.ok (), ([s]).erase s)
    else (.error .nilPanic, [])

/-- client.go ConnectCircuit: build the two-hop relay multiaddr (the Go
code uses ma.StringCast, which panics on an unparseable string), decode it
to an AddrInfo and connect.  A nil Host panics. -/
def ConnectCircuit (env : NetEnv) (c : P2pClient) (circuitPeer targetPeer : String) :
    Except Err Unit :=
  match env.parse ("/p2p/" ++ circuitPeer ++ "/p2p-circuit/p2p/" ++ targetPeer) with
  | none => .error .nilPanic
  | some maddr =>
    match env.addrInfoFromP2pAddr maddr with
    | .error e => .error e
    | .ok pi => if c.hostAlive then env.connect pi else .error .nilPanic

/-- client.go filterListener: collect the listeners matching the
test function, preserving order. -/
def filterListener (listeners : List Listener) (matchFunc : Listener → Bool) : List Listener :=
  listeners.filter matchFunc

/-- The duplicate test Forward builds: identical protocol, listen address
and target address (string comparison of the canonical forms). -/
def matchesTriple (proto : String) (listenA targetA : Multiaddr) (l : Listener) : Bool :=
  l.protocol == proto && l.listenAddress == listenA && l.targetAddress == some targetA

/-- The part of Forward after the health-check / circuit-fallback phase
(client.go lines building listenOpt onward).  `recovered` is true when the
deferred recover() is armed (the health check failed and the fallback ran):
a panic then makes Forward return its zero-value nil error with no state
change, otherwise a panic propagates.  Evaluation order follows the code:
parse the listen address (a failure here is returned), run parseIpfsAddr
on the target (its error is discarded), take the registry lock (a nil P2P
panics), parse the target (a failure leaves a nil target whose use
panics), look for a duplicate (found: return nil), otherwise register via
forwardLocal, which dereferences the discarded AddrInfo (a panic when
parseIpfsAddr had failed) and appends the new forward on success. -/
def forwardRest (env : NetEnv) (c : P2pClient) (protoOpt : String) (port : Nat)
    (peerId : String) (recovered : Bool) : Except Err Unit × P2pClient :=
  let listenOpt := "/ip4/127.0.0.1/tcp/" ++ toString port
  let targetOpt := "/p2p/" ++ peerId
  let panicRes : Except Err Unit × P2pClient :=
    if recovered then (.ok (), c) else (.error .nilPanic, c)
  match env.parse listenOpt with
  | none => (.error (.parseError listenOpt), c)
  | some listen =>
    let infoE := parseIpfsAddr env targetOpt
    match c.p2p with
    | none => panicRes
    | some st =>
      match env.parse targetOpt with
      | none => panicRes
      | some target =>
        let listeners := filterListener st.ListenersLocal (matchesTriple protoOpt listen target)
        if listeners.length > 0 then (.ok (), c)
        else
          match infoE with
          | .error _ => panicRes
          | .ok info =>
            match env.bindLocal protoOpt listen info.ID with
            | .error e => (.error e, c)
            | .ok _ =>
              (.ok (), { c with p2p := some { st with
                  ListenersLocal := st.ListenersLocal ++
                    [⟨protoOpt, listen, some ("/p2p/" ++ info.ID)⟩] } })

/-- client.go Forward: reject an empty peer id; health-check the target;
on a health-check failure (the deferred recover() is armed from here) pick
one random bootstrap peer (none available: "not enough bootstrap peers")
and attempt a single relayed circuit, whose failure is returned; then
proceed to the duplicate check and registration. -/
def Forward (env : NetEnv) (c : P2pClient) (protoOpt : String) (port : Nat)
    (peerId : String) : Except Err Unit × P2pClient :=
  if peerId = "" then (.error .emptyPeerID, c)
  else
    match (CheckForwardHealth env c protoOpt peerId).1 with
    | .ok _ => forwardRest env c protoOpt port peerId false
    | .error e =>
      if e = .nilPanic then (.error .nilPanic, c)
      else
        match randomSubsetOfPeers env (convertPeers env c.Peers) 1 with
        | [] => (.error .noRelayAvailable, c)
        | bp :: _ =>
          match ConnectCircuit env c bp.ID peerId with
          | .ok _ => forwardRest env c protoOpt port peerId true
          | .error e2 =>
            if e2 = .nilPanic then (.ok (), c) else (.error e2, c)

/-- Modelled from the spec: go-ipfs p2p.ForwardRemote (library code, not
among the given sources) registers an overlay-bind listener keyed by its
protocol — a second registration under an already-registered protocol
fails — listening on the overlay marker address; the target multiaddr is
stored unvalidated (a nil target is stored as none). -/
def ForwardRemote (c : P2pClient) (st : P2P) (proto : String) (target : Option Multiaddr) :
    Except Err Unit × P2pClient :=
  if st.ListenersP2P.any (fun l => l.protocol == proto) then
    (.error (.streamError "listener already registered"), c)
  else
    (.ok (), { c with p2p := some { st with
        ListenersP2P := st.ListenersP2P ++ [⟨proto, "/p2p-circuit", target⟩] } })

/-- client.go Listen: parse the target address — on failure the error is
only printed and execution continues with a nil target — then hand over to
ForwardRemote (a nil P2P panics). -/
def Listen (env : NetEnv) (c : P2pClient) (proto targetOpt : String) :
    Except Err Unit × P2pClient :=
  let target := env.parse targetOpt
  match c.p2p with
  | none => (.error .nilPanic, c)
  | some st => ForwardRemote c st proto target

/-- Modelled from the spec: Listeners.Close of the registry (library code,
not among the given sources) closes and removes every forward matching the
test, returning the count closed.  The test Close builds calls Equal on
each target address, so a stored nil target panics when reached. -/
def closeMatching (t : Multiaddr) : List Listener → Except Err (Nat × List Listener)
  | [] => .ok (0, [])
  | l :: ls =>
    match l.targetAddress with
    | none => .error .nilPanic
    | some ta =>
      match closeMatching t ls with
      | .error e => .error e
      | .ok (n, rest) =>
        if t = ta then .ok (n + 1, rest) else .ok (n, l :: rest)

/-- client.go Close: parse the target — a failure returns (0, the error) —
then close all forwards in the local registry, then in the overlay
registry, whose target address equals the parsed address, returning the
total count.  A nil P2P panics.  The outer Except is a panic; the inner
pair is the (count, error) the Go function returns. -/
def Close (env : NetEnv) (c : P2pClient) (target : String) :
    Except Err ((Nat × Option Err) × P2pClient) :=
  match env.parse target with
  | none => .ok ((0, some (.parseError target)), c)
  | some ta =>
    match c.p2p with
    | none => .error .nilPanic
    | some st =>
      match closeMatching ta st.ListenersLocal with
      | .error e => .error e
      | .ok (n1, loc) =>
        match closeMatching ta st.ListenersP2P with
        | .error e => .error e
        | .ok (n2, rem) =>
          .ok ((n1 + n2, none),
            { c with p2p := some { st with ListenersLocal := loc, ListenersP2P := rem } })

/-- client.go Destroy: close every raw stream, close all forwards in both
registries, close the host (its error is the result), then clear the P2P
and Host references.  A nil P2P or nil Host panics; in the nil-Host case
the registries have already been emptied when the panic hits. -/
def Destroy (env : NetEnv) (c : P2pClient) : Except Err Unit × P2pClient :=
  match c.p2p with
  | none => (.error .nilPanic, c)
  | some _ =>
    if c.hostAlive then
      (env.hostClose, { p2p := none, hostAlive := false, Peers := c.Peers })
    else
      (.error .nilPanic, { c with p2p := some ⟨[], [], []⟩ })

/-- P2PListenerInfoOutput: one row of the List operation. -/
structure P2PListenerInfoOutput where
  Protocol : String
  ListenAddress : String
  TargetAddress : String
deriving Repr, DecidableEq

/-- Rendering one listener for the List operation: TargetAddress().String()
on a stored nil target panics. -/
def listenerOutput (l : Listener) : Except Err P2PListenerInfoOutput :=
  match l.targetAddress with
  | none => .error .nilPanic
  | some t => .ok ⟨l.protocol, l.listenAddress, t⟩

/-- client.go List: snapshot both registries, local rows first.  A nil P2P
panics. -/
def ListForwards (c : P2pClient) : Except Err (List P2PListenerInfoOutput) :=
  match c.p2p with
  | none => .error .nilPanic
  | some st => do
    let a ← st.ListenersLocal.mapM listenerOutput
    let b ← st.ListenersP2P.mapM listenerOutput
    return a ++ b

instance {ε α : Type} [DecidableEq ε] [DecidableEq α] : DecidableEq (Except ε α) := fun a b =>
  match a, b with
  | .ok x, .ok y => if h : x = y then .isTrue (by simp [h]) else .isFalse (by simp [h])
  | .ok _, .error _ => .isFalse (by simp)
  | .error _, .ok _ => .isFalse (by simp)
  | .error x, .error y => if h : x = y then .isTrue (by simp [h]) else .isFalse (by simp [h])

/-- The peer identities carried by the resolved records (records without
an identity contribute nothing). -/
def nonEmptyIds (env : NetEnv) (rs : List Multiaddr) : List String :=
  (rs.map fun r => (env.splitAddr r).2).filter fun s => s ≠ ""

/-- The transport addresses of exactly the resolved records that carry an
identity, in order. -/
def goodAddrs (env : NetEnv) (rs : List Multiaddr) : List (Option Multiaddr) :=
  (rs.filter fun r => (env.splitAddr r).2 ≠ "").map fun r => (env.splitAddr r).1

theorem mergeAddrs_skip (env : NetEnv) (m : Multiaddr) :
    ∀ (rs : List Multiaddr) (info : AddrInfo),
      (∀ r ∈ rs, (env.splitAddr r).2 = "") → mergeAddrs env m rs info = .ok info := by
  intro rs
  induction rs with
  | nil => intro info _; rfl
  | cons r rest ih =>
    intro info h
    have hr : (env.splitAddr r).2 = "" := h r (List.mem_cons_self r rest)
    simp only [mergeAddrs, hr, if_pos rfl]
    exact ih info fun x hx => h x (List.mem_cons_of_mem r hx)

/-- C4: for every environment, client state, protocol and port, Forward
called with the empty peer identifier returns the EmptyPeerID error
("peer id cannot be empty") and returns the client state unchanged, so
both listener registries are untouched and no forward is created. -/
theorem forward_empty_peer_id (env : NetEnv) (c : P2pClient) (proto : String) (port : Nat) :
    Forward env c proto port "" = (.error .emptyPeerID, c) := by
  simp [Forward]

/-- C10: for every environment, client state and target string the
environment cannot parse as a multiaddr, Close returns the count 0
together with the parse error, performs no panic, and returns the client
state unchanged — no forward in either registry is closed. -/
theorem close_unparseable (env : NetEnv) (c : P2pClient) (target : String)
    (hp : env.parse target = none) :
    Close env c target = .ok ((0, some (.parseError target)), c) := by
  simp [Close, hp]

/-- A concrete environment in which nothing parses; every other call fails
or is inert. -/
def envNoParse : NetEnv :=
  ⟨fun _ => none, fun k => .error (.netError k), fun _ => .ok [], fun _ => (none, ""),
   fun _ _ _ => .error (.netError "down"), fun _ => .ok (), fun _ _ _ => .ok (),
   .ok (), fun n => List.range n⟩

/-- Concrete client for witnesses: a fresh live client with empty
registries and no configured peers. -/
def clientFresh : P2pClient := ⟨some ⟨[], [], []⟩, true, []⟩

theorem close_unparseable_witness :
    envNoParse.parse "bogus" = none ∧
      Close envNoParse clientFresh "bogus" = .ok ((0, some (.parseError "bogus")), clientFresh) :=
  ⟨rfl, close_unparseable envNoParse clientFresh "bogus" rfl⟩

/-- C9: if the address parses, does not directly encode a peer-and-address
pair, and symbolic resolution returns a non-empty list of records none of
which carries a peer identity, then parseIpfsAddr succeeds with an
AddrInfo whose identity is the empty string and whose address list is
empty: every identity-less record is silently skipped and no resolution
error is produced. -/
theorem parseIpfsAddr_no_identity (env : NetEnv) (addr : String) (m : Multiaddr)
    (rs : List Multiaddr)
    (hp : env.parse addr = some m)
    (hd : ∀ pi, env.addrInfoFromP2pAddr m ≠ .ok pi)
    (hr : env.resolve m = .ok rs)
    (hne : rs ≠ [])
    (hids : ∀ r ∈ rs, (env.splitAddr r).2 = "") :
    parseIpfsAddr env addr = .ok ⟨"", []⟩ := by
  unfold parseIpfsAddr
  cases hinfo : env.addrInfoFromP2pAddr m with
  | ok pi => exact absurd hinfo (hd pi)
  | error e =>
    simp only [hp, hinfo, hr, if_neg hne]
    exact mergeAddrs_skip env m rs ⟨"", []⟩ hids

/-- Concrete environment for the C9 witness: "/dnsaddr/x" resolves to two
records, neither carrying a peer identity. -/
def envC9 : NetEnv :=
  ⟨fun s => some s, fun k => .error (.netError k),
   fun s => if s = "/dnsaddr/x" then .ok ["/ip4/1.2.3.4/tcp/4001", "/ip4/5.6.7.8/tcp/4001"]
            else .ok [],
   fun r => (some r, ""),
   fun _ _ _ => .error (.netError "down"), fun _ => .ok (), fun _ _ _ => .ok (),
   .ok (), fun n => List.range n⟩

theorem parseIpfsAddr_no_identity_witness :
    envC9.parse "/dnsaddr/x" = some "/dnsaddr/x" ∧
      (∀ pi, envC9.addrInfoFromP2pAddr "/dnsaddr/x" ≠ .ok pi) ∧
      envC9.resolve "/dnsaddr/x" = .ok ["/ip4/1.2.3.4/tcp/4001", "/ip4/5.6.7.8/tcp/4001"] ∧
      (["/ip4/1.2.3.4/tcp/4001", "/ip4/5.6.7.8/tcp/4001"] : List Multiaddr) ≠ [] ∧
      parseIpfsAddr envC9 "/dnsaddr/x" = .ok ⟨"", []⟩ :=
  ⟨rfl, fun pi h => by simp [envC9] at h, rfl, by decide,
    parseIpfsAddr_no_identity envC9 "/dnsaddr/x" "/dnsaddr/x"
      ["/ip4/1.2.3.4/tcp/4001", "/ip4/5.6.7.8/tcp/4001"] rfl
      (fun pi h => by simp [envC9] at h) rfl (by decide) (by decide)⟩

/-- C8 (code bug, failing input): on a fresh live client, Listen under
protocol "/x/ssh" with the unparseable target "not-a-multiaddr" returns
success instead of an error — the parse failure is only printed — and
registers an overlay-bind forward whose stored target is the nil
multiaddr.  The claim (and the spec) requires a failed listen to return a
non-nil error and to register nothing. -/
theorem listen_unparseable_registers :
    Listen envNoParse clientFresh "/x/ssh" "not-a-multiaddr" =
      (.ok (), ⟨some ⟨[], [⟨"/x/ssh", "/p2p-circuit", none⟩], []⟩, true, []⟩) := by
  rfl

/-- C7: when the host is live and /p2p/peerId parses and directly decodes
to an AddrInfo, CheckForwardHealth succeeds exactly when a new stream to
the resolved peer opens under the given protocol within the 30-second
timeout; the call holds no stream open at return (a stream that opened was
closed before returning), and a dial/timeout/negotiation failure is
returned to the caller unchanged. -/
theorem check_forward_health_spec (env : NetEnv) (c : P2pClient) (proto peerId : String)
    (m : Multiaddr) (pinfo : AddrInfo)
    (hhost : c.hostAlive = true)
    (hp : env.parse ("/p2p/" ++ peerId) = some m)
    (hinfo : env.addrInfoFromP2pAddr m = .ok pinfo) :
    ((CheckForwardHealth env c proto peerId).1 = .ok () ↔
        ∃ s, env.newStream pinfo.ID proto 30 = .ok s)
    ∧ (CheckForwardHealth env c proto peerId).2 = []
    ∧ ∀ e, env.newStream pinfo.ID proto 30 = .error e →
        (CheckForwardHealth env c proto peerId).1 = .error e := by
  have hparse : parseIpfsAddr env ("/p2p/" ++ peerId) = .ok pinfo := by
    unfold parseIpfsAddr
    simp only [hp, hinfo]
  unfold CheckForwardHealth
  rw [hparse]
  cases hs : env.newStream pinfo.ID proto 30 with
  | ok s => simp [hhost, hs]
  | error e => simp [hhost, hs]

/-- Concrete environment for the C7 witness: the peer QmX is reachable
under protocol /x/ssh with a 30-second timeout, as stream number 7. -/
def envC7 : NetEnv :=
  ⟨fun s => some s,
   fun k => if k = "/p2p/QmX" then .ok ⟨"QmX", []⟩ else .error (.netError k),
   fun _ => .ok [], fun r => (some r, ""),
   fun pid proto t => if pid = "QmX" ∧ proto = "/x/ssh" ∧ t = 30 then .ok 7
                      else .error (.netError "down"),
   fun _ => .ok (), fun _ _ _ => .ok (), .ok (), fun n => List.range n⟩

theorem check_forward_health_witness :
    clientFresh.hostAlive = true ∧
      envC7.parse ("/p2p/" ++ "QmX") = some "/p2p/QmX" ∧
      envC7.addrInfoFromP2pAddr "/p2p/QmX" = .ok ⟨"QmX", []⟩ ∧
      (((CheckForwardHealth envC7 clientFresh "/x/ssh" "QmX").1 = .ok () ↔
          ∃ s, envC7.newStream (AddrInfo.mk "QmX" []).ID "/x/ssh" 30 = .ok s)
        ∧ (CheckForwardHealth envC7 clientFresh "/x/ssh" "QmX").2 = []
        ∧ ∀ e, envC7.newStream (AddrInfo.mk "QmX" []).ID "/x/ssh" 30 = .error e →
            (CheckForwardHealth envC7 clientFresh "/x/ssh" "QmX").1 = .error e) :=
  ⟨rfl, by decide, by decide,
    check_forward_health_spec envC7 clientFresh "/x/ssh" "QmX" "/p2p/QmX" ⟨"QmX", []⟩
      rfl (by decide) (by decide)⟩

/-- C3 (counterexample): on a concrete fresh live client, Destroy
succeeds and clears the internal references; the next List call then
dereferences the nil P2P pointer — a runtime panic, modelled as
Err.nilPanic — which is not the ClientClosed failure the claim requires
(and not a success either). -/
theorem destroy_then_list_not_clientClosed :
    Destroy envNoParse clientFresh = (.ok (), ⟨none, false, []⟩) ∧
      ListForwards ⟨none, false, []⟩ = .error .nilPanic ∧
      Err.nilPanic ≠ Err.clientClosed :=
  ⟨rfl, rfl, by decide⟩

/-- C3 (amended): after Destroy returns on a live client, the internal
P2P and Host references are cleared, and every subsequent public
operation that reaches them — List; Listen; Close with a parseable
target; Forward with a non-empty peer identifier that decodes to a peer —
panics on a nil dereference (Err.nilPanic) with no state change, rather
than failing with a ClientClosed error. -/
theorem destroyed_client_ops_panic (env : NetEnv) (c : P2pClient)
    (proto target : String) (port : Nat) (pid : String) (ta m : Multiaddr) (pinfo : AddrInfo)
    (hp2p : c.p2p ≠ none) (hhost : c.hostAlive = true)
    (hpid : pid ≠ "")
    (hta : env.parse target = some ta)
    (hm : env.parse ("/p2p/" ++ pid) = some m)
    (hinfo : env.addrInfoFromP2pAddr m = .ok pinfo) :
    ListForwards (Destroy env c).2 = .error .nilPanic
    ∧ (Listen env (Destroy env c).2 proto target).1 = .error .nilPanic
    ∧ (Forward env (Destroy env c).2 proto port pid).1 = .error .nilPanic
    ∧ Close env (Destroy env c).2 target = .error .nilPanic := by
  obtain ⟨st, hst⟩ := Option.ne_none_iff_exists'.mp hp2p
  have hd : (Destroy env c).2 = ⟨none, false, c.Peers⟩ := by
    simp [Destroy, hst, hhost]
  rw [hd]
  have hcheck : (CheckForwardHealth env ⟨none, false, c.Peers⟩ proto pid).1 =
      .error .nilPanic := by
    have hparse : parseIpfsAddr env ("/p2p/" ++ pid) = .ok pinfo := by
      unfold parseIpfsAddr
      simp only [hm, hinfo]
    unfold CheckForwardHealth
    rw [hparse]
    simp
  refine ⟨rfl, rfl, ?_, ?_⟩
  · simp [Forward, hpid, hcheck]
  · simp [Close, hta]

/-- Concrete environment for the C3 witness: everything parses, the peer
QmY decodes directly, the host closes cleanly. -/
def envC3w : NetEnv :=
  ⟨fun s => some s,
   fun k => if k = "/p2p/QmY" then .ok ⟨"QmY", []⟩ else .error (.netError k),
   fun _ => .ok [], fun r => (some r, ""), fun _ _ _ => .error (.netError "down"),
   fun _ => .ok (), fun _ _ _ => .ok (), .ok (), fun n => List.range n⟩

theorem destroyed_client_ops_panic_witness :
    clientFresh.p2p ≠ none ∧ clientFresh.hostAlive = true ∧ ("QmY" : String) ≠ "" ∧
      envC3w.parse "/ip4/127.0.0.1/tcp/80" = some "/ip4/127.0.0.1/tcp/80" ∧
      envC3w.parse ("/p2p/" ++ "QmY") = some "/p2p/QmY" ∧
      envC3w.addrInfoFromP2pAddr "/p2p/QmY" = .ok ⟨"QmY", []⟩ ∧
      (ListForwards (Destroy envC3w clientFresh).2 = .error .nilPanic
        ∧ (Listen envC3w (Destroy envC3w clientFresh).2 "/x/ssh" "/ip4/127.0.0.1/tcp/80").1 =
            .error .nilPanic
        ∧ (Forward envC3w (Destroy envC3w clientFresh).2 "/x/ssh" 8000 "QmY").1 =
            .error .nilPanic
        ∧ Close envC3w (Destroy envC3w clientFresh).2 "/ip4/127.0.0.1/tcp/80" =
            .error .nilPanic) :=
  ⟨by decide, rfl, by decide, rfl, by decide, by decide,
    destroyed_client_ops_panic envC3w clientFresh "/x/ssh" "/ip4/127.0.0.1/tcp/80" 8000 "QmY"
      "/ip4/127.0.0.1/tcp/80" "/p2p/QmY" ⟨"QmY", []⟩
      (by decide) rfl (by decide) rfl (by decide) (by decide)⟩

/-- The forward Forward(proto, port, peerId) registers on success:
protocol proto, listen address /ip4/127.0.0.1/tcp/port, target address
/p2p/peerId. -/
def tripleListener (proto : String) (port : Nat) (peerId : String) : Listener :=
  ⟨proto, "/ip4/127.0.0.1/tcp/" ++ toString port, some ("/p2p/" ++ peerId)⟩

/-- The duplicate test of Forward(proto, port, peerId), on canonical
addresses. -/
def tripleMatch (proto : String) (port : Nat) (peerId : String) : Listener → Bool :=
  matchesTriple proto ("/ip4/127.0.0.1/tcp/" ++ toString port) ("/p2p/" ++ peerId)

/-- C1: with a live client, a reachable target peer and a bindable local
port, calling Forward(proto, port, peerId) on a registry holding no
forward for the triple registers exactly one local forward with the
triple (proto, /ip4/127.0.0.1/tcp/port, /p2p/peerId); calling it a second
time with identical arguments finds the existing forward in the registry
and returns success with the state unchanged, so exactly one registered
forward with that triple remains. -/
theorem forward_idempotent (env : NetEnv) (c : P2pClient) (st : P2P)
    (proto : String) (port : Nat) (peerId : String) (s : Nat)
    (hpid : peerId ≠ "")
    (hp2p : c.p2p = some st)
    (hhost : c.hostAlive = true)
    (hparseT : env.parse ("/p2p/" ++ peerId) = some ("/p2p/" ++ peerId))
    (hinfo : env.addrInfoFromP2pAddr ("/p2p/" ++ peerId) = .ok ⟨peerId, []⟩)
    (hstream : env.newStream peerId proto 30 = .ok s)
    (hparseL : env.parse ("/ip4/127.0.0.1/tcp/" ++ toString port) =
        some ("/ip4/127.0.0.1/tcp/" ++ toString port))
    (hbind : env.bindLocal proto ("/ip4/127.0.0.1/tcp/" ++ toString port) peerId = .ok ())
    (hnodup : st.ListenersLocal.countP (tripleMatch proto port peerId) = 0) :
    Forward env c proto port peerId =
      (.ok (), { c with p2p := some { st with
          ListenersLocal := st.ListenersLocal ++ [tripleListener proto port peerId] } })
    ∧ Forward env
        { c with p2p := some { st with
            ListenersLocal := st.ListenersLocal ++ [tripleListener proto port peerId] } }
        proto port peerId =
      (.ok (), { c with p2p := some { st with
          ListenersLocal := st.ListenersLocal ++ [tripleListener proto port peerId] } })
    ∧ (st.ListenersLocal ++ [tripleListener proto port peerId]).countP
        (tripleMatch proto port peerId) = 1 := by
  have hparse : parseIpfsAddr env ("/p2p/" ++ peerId) = .ok ⟨peerId, []⟩ := by
    unfold parseIpfsAddr
    simp only [hparseT, hinfo]
  have hcheck : ∀ c2 : P2pClient, c2.hostAlive = true →
      (CheckForwardHealth env c2 proto peerId).1 = .ok () := by
    intro c2 h2
    unfold CheckForwardHealth
    rw [hparse]
    simp [h2, hstream]
  have hmatch : tripleMatch proto port peerId (tripleListener proto port peerId) = true := by
    simp [tripleMatch, tripleListener, matchesTriple]
  have hcount1 : (st.ListenersLocal ++ [tripleListener proto port peerId]).countP
      (tripleMatch proto port peerId) = 1 := by
    rw [List.countP_append, hnodup]
    simp [List.countP_cons, hmatch]
  have hfwd : ∀ (c2 : P2pClient) (st2 : P2P), c2.p2p = some st2 → c2.hostAlive = true →
      Forward env c2 proto port peerId =
        (if 0 < (st2.ListenersLocal.filter (tripleMatch proto port peerId)).length
         then (.ok (), c2)
         else (.ok (), { c2 with p2p := some { st2 with
             ListenersLocal := st2.ListenersLocal ++ [tripleListener proto port peerId] } })) := by
    intro c2 st2 h2 hh2
    simp only [Forward, if_neg hpid, hcheck c2 hh2, forwardRest, hparseL, h2, hparseT, hparse,
      hbind, filterListener, tripleMatch, tripleListener, gt_iff_lt]
  refine ⟨?_, ?_, hcount1⟩
  · rw [hfwd c st hp2p hhost]
    have h0 : (st.ListenersLocal.filter (tripleMatch proto port peerId)).length = 0 := by
      rw [← List.countP_eq_length_filter]
      exact hnodup
    simp [h0]
  · have h2 := hfwd
      { c with p2p := some { st with
          ListenersLocal := st.ListenersLocal ++ [tripleListener proto port peerId] } }
      { st with ListenersLocal := st.ListenersLocal ++ [tripleListener proto port peerId] }
      rfl hhost
    have h1 : ((st.ListenersLocal ++ [tripleListener proto port peerId]).filter
        (tripleMatch proto port peerId)).length = 1 := by
      rw [← List.countP_eq_length_filter]
      exact hcount1
    have hpos : 0 < ((st.ListenersLocal ++ [tripleListener proto port peerId]).filter
        (tripleMatch proto port peerId)).length := by
      rw [h1]
      exact Nat.one_pos
    rw [h2, if_pos hpos]

/-- Concrete environment for the C1 witness: everything parses to itself,
the peer QmZ decodes directly and is reachable under /x/ssh, local binds
succeed. -/
def envC1 : NetEnv :=
  ⟨fun s => some s,
   fun k => if k = "/p2p/QmZ" then .ok ⟨"QmZ", []⟩ else .error (.netError k),
   fun _ => .ok [], fun r => (some r, ""),
   fun pid proto t => if pid = "QmZ" ∧ proto = "/x/ssh" ∧ t = 30 then .ok 3
                      else .error (.netError "down"),
   fun _ => .ok (), fun _ _ _ => .ok (), .ok (), fun n => List.range n⟩

theorem forward_idempotent_witness :
    ("QmZ" : String) ≠ "" ∧
    clientFresh.p2p = some ⟨[], [], []⟩ ∧
    clientFresh.hostAlive = true ∧
    envC1.parse ("/p2p/" ++ "QmZ") = some ("/p2p/" ++ "QmZ") ∧
    envC1.addrInfoFromP2pAddr ("/p2p/" ++ "QmZ") = .ok ⟨"QmZ", []⟩ ∧
    envC1.newStream "QmZ" "/x/ssh" 30 = .ok 3 ∧
    envC1.parse ("/ip4/127.0.0.1/tcp/" ++ toString 8000) =
      some ("/ip4/127.0.0.1/tcp/" ++ toString 8000) ∧
    envC1.bindLocal "/x/ssh" ("/ip4/127.0.0.1/tcp/" ++ toString 8000) "QmZ" = .ok () ∧
    ([] : List Listener).countP (tripleMatch "/x/ssh" 8000 "QmZ") = 0 ∧
    (Forward envC1 clientFresh "/x/ssh" 8000 "QmZ" =
        (.ok (), { clientFresh with p2p := some { P2P.mk [] [] [] with
            ListenersLocal := [] ++ [tripleListener "/x/ssh" 8000 "QmZ"] } })
      ∧ Forward envC1
          { clientFresh with p2p := some { P2P.mk [] [] [] with
              ListenersLocal := [] ++ [tripleListener "/x/ssh" 8000 "QmZ"] } }
          "/x/ssh" 8000 "QmZ" =
        (.ok (), { clientFresh with p2p := some { P2P.mk [] [] [] with
            ListenersLocal := [] ++ [tripleListener "/x/ssh" 8000 "QmZ"] } })
      ∧ ([] ++ [tripleListener "/x/ssh" 8000 "QmZ"]).countP
          (tripleMatch "/x/ssh" 8000 "QmZ") = 1) :=
  ⟨by decide, rfl, rfl, rfl, by decide, by decide, rfl, by decide, by decide,
    forward_idempotent envC1 clientFresh ⟨[], [], []⟩ "/x/ssh" 8000 "QmZ" 3
      (by decide) rfl rfl rfl (by decide) (by decide) rfl (by decide) (by decide)⟩

/-- C5: when the health check of the target peer fails with an ordinary
error (a returned error, not a panic): if the configured relay peer set
converts to the empty list, Forward fails with the NoRelayAvailable error
("not enough bootstrap peers"), registers no forward and propagates the
failure to the caller; if the random selection yields a relay, a single
circuit attempt is made through exactly that selected relay, and an
ordinary failure of that one attempt is propagated unchanged, again with
no forward registered (the state is returned untouched in both cases). -/
theorem forward_relay_fallback (env : NetEnv) (c : P2pClient) (proto : String)
    (port : Nat) (pid : String) (e : Err)
    (hpid : pid ≠ "")
    (hhc : (CheckForwardHealth env c proto pid).1 = .error e)
    (he : e ≠ .nilPanic) :
    (convertPeers env c.Peers = [] →
      Forward env c proto port pid = (.error .noRelayAvailable, c))
    ∧ ∀ bp rest e2, randomSubsetOfPeers env (convertPeers env c.Peers) 1 = bp :: rest →
        ConnectCircuit env c bp.ID pid = .error e2 → e2 ≠ .nilPanic →
        Forward env c proto port pid = (.error e2, c) := by
  constructor
  · intro hemp
    have hsub : randomSubsetOfPeers env (convertPeers env c.Peers) 1 = [] := by
      rw [hemp]
      simp [randomSubsetOfPeers]
    simp only [Forward, if_neg hpid, hhc, if_neg he, hsub]
  · intro bp rest e2 hsel hcc he2
    simp only [Forward, if_neg hpid, hhc, if_neg he, hsel, hcc, if_neg he2]

/-- Concrete environment for the C5 witness: the target peer QmW decodes
but is unreachable (every stream open fails), the single configured relay
R1 decodes, and the circuit connect through it is refused. -/
def envC5 : NetEnv :=
  ⟨fun s => some s,
   fun k => if k = "/p2p/QmW" then .ok ⟨"QmW", []⟩
            else if k = "/ip4/9.9.9.9/tcp/4001/p2p/R1" then
              .ok ⟨"R1", [some "/ip4/9.9.9.9/tcp/4001"]⟩
            else if k = "/p2p/R1/p2p-circuit/p2p/QmW" then
              .ok ⟨"QmW", [some "/p2p/R1/p2p-circuit"]⟩
            else .error (.netError k),
   fun _ => .ok [], fun r => (some r, ""),
   fun _ _ _ => .error (.netError "down"),
   fun _ => .error (.netError "circuit refused"), fun _ _ _ => .ok (),
   .ok (), fun n => List.range n⟩

/-- A live client with one configured relay peer. -/
def clientOneRelay : P2pClient := ⟨some ⟨[], [], []⟩, true, ["/ip4/9.9.9.9/tcp/4001/p2p/R1"]⟩

theorem forward_relay_fallback_witness :
    ("QmW" : String) ≠ "" ∧
    (CheckForwardHealth envC5 clientFresh "/x/ssh" "QmW").1 = .error (.netError "down") ∧
    Err.netError "down" ≠ Err.nilPanic ∧
    convertPeers envC5 clientFresh.Peers = [] ∧
    Forward envC5 clientFresh "/x/ssh" 8000 "QmW" = (.error .noRelayAvailable, clientFresh) ∧
    (CheckForwardHealth envC5 clientOneRelay "/x/ssh" "QmW").1 = .error (.netError "down") ∧
    randomSubsetOfPeers envC5 (convertPeers envC5 clientOneRelay.Peers) 1 =
      [⟨"R1", [some "/ip4/9.9.9.9/tcp/4001"]⟩] ∧
    ConnectCircuit envC5 clientOneRelay "R1" "QmW" = .error (.netError "circuit refused") ∧
    Forward envC5 clientOneRelay "/x/ssh" 8000 "QmW" =
      (.error (.netError "circuit refused"), clientOneRelay) :=
  ⟨by decide, by decide, by decide, by decide,
    (forward_relay_fallback envC5 clientFresh "/x/ssh" 8000 "QmW" (.netError "down")
        (by decide) (by decide) (by decide)).1 (by decide),
    by decide, by decide, by decide,
    (forward_relay_fallback envC5 clientOneRelay "/x/ssh" 8000 "QmW" (.netError "down")
        (by decide) (by decide) (by decide)).2
      ⟨"R1", [some "/ip4/9.9.9.9/tcp/4001"]⟩ [] (.netError "circuit refused")
      (by decide) (by decide) (by decide)⟩

/-- When every listener in the list holds a target address (no stored nil
target), closing by target equality returns the count of matching
listeners and keeps exactly the non-matching ones, in order. -/
theorem closeMatching_eval (t : Multiaddr) :
    ∀ ls : List Listener, (∀ l ∈ ls, (l.targetAddress).isSome) →
      closeMatching t ls =
        .ok (ls.countP (fun l => l.targetAddress == some t),
             ls.filter (fun l => !(l.targetAddress == some t))) := by
  intro ls
  induction ls with
  | nil => intro _; simp [closeMatching]
  | cons l ls ih =>
    intro h
    obtain ⟨ta, hta⟩ := Option.isSome_iff_exists.mp (h l (List.mem_cons_self l ls))
    have hrest := ih fun x hx => h x (List.mem_cons_of_mem l hx)
    by_cases hEq : t = ta
    · subst hEq
      simp [closeMatching, hta, hrest, List.countP_cons, List.filter_cons]
    · have hne : ¬ (ta = t) := fun hc => hEq hc.symm
      simp [closeMatching, hta, hrest, List.countP_cons, List.filter_cons, hEq, hne]

/-- C2: on a live client whose registries store no nil target, Close(addr)
with a parseable address removes exactly those forwards — in both
registries — whose target address equals the parsed address, returns
their exact count with a nil error, and keeps the others in order; a
second Close with the same address on the resulting state returns the
count 0 and changes nothing. -/
theorem close_removes_matching (env : NetEnv) (c : P2pClient) (st : P2P)
    (addr : String) (ta : Multiaddr)
    (hp : env.parse addr = some ta)
    (hp2p : c.p2p = some st)
    (hwfL : ∀ l ∈ st.ListenersLocal, (l.targetAddress).isSome)
    (hwfP : ∀ l ∈ st.ListenersP2P, (l.targetAddress).isSome) :
    Close env c addr =
      .ok ((st.ListenersLocal.countP (fun l => l.targetAddress == some ta)
            + st.ListenersP2P.countP (fun l => l.targetAddress == some ta), none),
        { c with p2p := some { st with
            ListenersLocal := st.ListenersLocal.filter (fun l => !(l.targetAddress == some ta)),
            ListenersP2P := st.ListenersP2P.filter (fun l => !(l.targetAddress == some ta)) } })
    ∧ Close env
        { c with p2p := some { st with
            ListenersLocal := st.ListenersLocal.filter (fun l => !(l.targetAddress == some ta)),
            ListenersP2P := st.ListenersP2P.filter (fun l => !(l.targetAddress == some ta)) } }
        addr =
      .ok ((0, none),
        { c with p2p := some { st with
            ListenersLocal := st.ListenersLocal.filter (fun l => !(l.targetAddress == some ta)),
            ListenersP2P := st.ListenersP2P.filter (fun l => !(l.targetAddress == some ta)) } }) := by
  constructor
  · simp only [Close, hp, hp2p, closeMatching_eval ta st.ListenersLocal hwfL,
      closeMatching_eval ta st.ListenersP2P hwfP]
  · have hwfL2 : ∀ l ∈ st.ListenersLocal.filter (fun l => !(l.targetAddress == some ta)),
        (l.targetAddress).isSome := fun l hl => hwfL l (List.mem_of_mem_filter hl)
    have hwfP2 : ∀ l ∈ st.ListenersP2P.filter (fun l => !(l.targetAddress == some ta)),
        (l.targetAddress).isSome := fun l hl => hwfP l (List.mem_of_mem_filter hl)
    have hcnt : ∀ ls : List Listener,
        (ls.filter (fun l => !(l.targetAddress == some ta))).countP
          (fun l => l.targetAddress == some ta) = 0 := by
      intro ls
      refine List.countP_eq_zero.mpr ?_
      intro l hl
      have := (List.mem_filter.mp hl).2
      simp only [Bool.not_eq_true'] at this
      simp [this]
    have hidem : ∀ ls : List Listener,
        (ls.filter (fun l => !(l.targetAddress == some ta))).filter
          (fun l => !(l.targetAddress == some ta)) =
        ls.filter (fun l => !(l.targetAddress == some ta)) := by
      intro ls
      exact List.filter_eq_self.mpr fun a ha => (List.mem_filter.mp ha).2
    simp only [Close, hp, closeMatching_eval ta _ hwfL2, closeMatching_eval ta _ hwfP2,
      hcnt, hidem]

/-- Concrete environment for the C2 witness: every address parses to
itself. -/
def envC2 : NetEnv :=
  ⟨fun s => some s, fun k => .error (.netError k), fun _ => .ok [], fun r => (some r, ""),
   fun _ _ _ => .error (.netError "down"), fun _ => .ok (), fun _ _ _ => .ok (),
   .ok (), fun n => List.range n⟩

/-- A live client holding two local forwards (targets /p2p/T and /p2p/U)
and one overlay forward (target /p2p/T). -/
def clientTwoForwards : P2pClient :=
  ⟨some ⟨[⟨"/x/ssh", "/ip4/127.0.0.1/tcp/8000", some "/p2p/T"⟩,
          ⟨"/x/db", "/ip4/127.0.0.1/tcp/9000", some "/p2p/U"⟩],
         [⟨"/x/web", "/p2p-circuit", some "/p2p/T"⟩], []⟩, true, []⟩

theorem close_removes_matching_witness :
    envC2.parse "/p2p/T" = some "/p2p/T" ∧
    clientTwoForwards.p2p = some
      ⟨[⟨"/x/ssh", "/ip4/127.0.0.1/tcp/8000", some "/p2p/T"⟩,
        ⟨"/x/db", "/ip4/127.0.0.1/tcp/9000", some "/p2p/U"⟩],
       [⟨"/x/web", "/p2p-circuit", some "/p2p/T"⟩], []⟩ ∧
    Close envC2 clientTwoForwards "/p2p/T" =
      .ok ((2, none),
        ⟨some ⟨[⟨"/x/db", "/ip4/127.0.0.1/tcp/9000", some "/p2p/U"⟩], [], []⟩, true, []⟩) ∧
    Close envC2
      ⟨some ⟨[⟨"/x/db", "/ip4/127.0.0.1/tcp/9000", some "/p2p/U"⟩], [], []⟩, true, []⟩
      "/p2p/T" =
      .ok ((0, none),
        ⟨some ⟨[⟨"/x/db", "/ip4/127.0.0.1/tcp/9000", some "/p2p/U"⟩], [], []⟩, true, []⟩) :=
  ⟨rfl, rfl,
    (close_removes_matching envC2 clientTwoForwards
        ⟨[⟨"/x/ssh", "/ip4/127.0.0.1/tcp/8000", some "/p2p/T"⟩,
          ⟨"/x/db", "/ip4/127.0.0.1/tcp/9000", some "/p2p/U"⟩],
         [⟨"/x/web", "/p2p-circuit", some "/p2p/T"⟩], []⟩
        "/p2p/T" "/p2p/T" rfl rfl (by decide) (by decide)).1,
    (close_removes_matching envC2 clientTwoForwards
        ⟨[⟨"/x/ssh", "/ip4/127.0.0.1/tcp/8000", some "/p2p/T"⟩,
          ⟨"/x/db", "/ip4/127.0.0.1/tcp/9000", some "/p2p/U"⟩],
         [⟨"/x/web", "/p2p-circuit", some "/p2p/T"⟩], []⟩
        "/p2p/T" "/p2p/T" rfl rfl (by decide) (by decide)).2⟩

theorem nonEmptyIds_cons_skip (env : NetEnv) (r : Multiaddr) (rest : List Multiaddr)
    (h : (env.splitAddr r).2 = "") : nonEmptyIds env (r :: rest) = nonEmptyIds env rest := by
  simp [nonEmptyIds, List.filter_cons, h]

theorem nonEmptyIds_cons_keep (env : NetEnv) (r : Multiaddr) (rest : List Multiaddr)
    (h : (env.splitAddr r).2 ≠ "") :
    nonEmptyIds env (r :: rest) = (env.splitAddr r).2 :: nonEmptyIds env rest := by
  simp [nonEmptyIds, List.filter_cons, h]

theorem goodAddrs_cons_skip (env : NetEnv) (r : Multiaddr) (rest : List Multiaddr)
    (h : (env.splitAddr r).2 = "") : goodAddrs env (r :: rest) = goodAddrs env rest := by
  simp [goodAddrs, List.filter_cons, h]

theorem goodAddrs_cons_keep (env : NetEnv) (r : Multiaddr) (rest : List Multiaddr)
    (h : (env.splitAddr r).2 ≠ "") :
    goodAddrs env (r :: rest) = (env.splitAddr r).1 :: goodAddrs env rest := by
  simp [goodAddrs, List.filter_cons, h]

/-- A successful merge appends to the accumulated addresses exactly the
transport addresses of the identity-carrying records. -/
theorem mergeAddrs_addrs_of_ok (env : NetEnv) (m : Multiaddr) :
    ∀ (rs : List Multiaddr) (info res : AddrInfo),
      mergeAddrs env m rs info = .ok res → res.Addrs = info.Addrs ++ goodAddrs env rs := by
  intro rs
  induction rs with
  | nil =>
    intro info res h
    simp only [mergeAddrs, Except.ok.injEq] at h
    subst h
    simp [goodAddrs]
  | cons r rest ih =>
    intro info res h
    simp only [mergeAddrs] at h
    by_cases h1 : (env.splitAddr r).2 = ""
    · rw [if_pos h1] at h
      rw [goodAddrs_cons_skip env r rest h1]
      exact ih info res h
    · rw [if_neg h1] at h
      rw [goodAddrs_cons_keep env r rest h1]
      by_cases h2 : info.ID = ""
      · rw [if_pos h2] at h
        have hx := ih _ res h
        simp only at hx
        rw [hx, List.append_assoc, List.singleton_append]
      · rw [if_neg h2] at h
        by_cases h3 : info.ID = (env.splitAddr r).2
        · rw [if_pos h3] at h
          have hx := ih _ res h
          simp only at hx
          rw [hx, List.append_assoc, List.singleton_append]
        · rw [if_neg h3] at h
          exact absurd h (by simp)

/-- A successful merge starting without an identity ends with the first
identity among the records (or the empty identity when none occurs);
starting with an identity it keeps it. -/
theorem mergeAddrs_id_of_ok (env : NetEnv) (m : Multiaddr) :
    ∀ (rs : List Multiaddr) (info res : AddrInfo),
      mergeAddrs env m rs info = .ok res →
      res.ID = if info.ID = "" then (nonEmptyIds env rs).headD info.ID else info.ID := by
  intro rs
  induction rs with
  | nil =>
    intro info res h
    simp only [mergeAddrs, Except.ok.injEq] at h
    subst h
    simp [nonEmptyIds]
  | cons r rest ih =>
    intro info res h
    simp only [mergeAddrs] at h
    by_cases h1 : (env.splitAddr r).2 = ""
    · rw [if_pos h1] at h
      rw [nonEmptyIds_cons_skip env r rest h1]
      exact ih info res h
    · rw [if_neg h1] at h
      rw [nonEmptyIds_cons_keep env r rest h1]
      by_cases h2 : info.ID = ""
      · rw [if_pos h2] at h
        have hx := ih _ res h
        simp only [if_neg h1] at hx
        simp [h2, hx]
      · rw [if_neg h2] at h
        by_cases h3 : info.ID = (env.splitAddr r).2
        · rw [if_pos h3] at h
          have hx := ih _ res h
          simp only [if_neg h2] at hx
          simp [h2, hx]
        · rw [if_neg h3] at h
          exact absurd h (by simp)

/-- Once an identity is adopted, any record carrying a different identity
makes the merge fail with the ambiguity error, whose first name is the
adopted identity and whose second name is one of the record identities. -/
theorem mergeAddrs_conflict (env : NetEnv) (m : Multiaddr) :
    ∀ (rs : List Multiaddr) (info : AddrInfo) (y : String),
      info.ID ≠ "" → y ∈ nonEmptyIds env rs → y ≠ info.ID →
      ∃ b, mergeAddrs env m rs info = .error (.ambiguousAddr m info.ID b) ∧
        b ∈ nonEmptyIds env rs ∧ b ≠ info.ID := by
  intro rs
  induction rs with
  | nil =>
    intro info y _ hy _
    simp [nonEmptyIds] at hy
  | cons r rest ih =>
    intro info y hID hy hyne
    by_cases h1 : (env.splitAddr r).2 = ""
    · rw [nonEmptyIds_cons_skip env r rest h1] at hy
      obtain ⟨b, hb1, hb2, hb3⟩ := ih info y hID hy hyne
      refine ⟨b, ?_, ?_, hb3⟩
      · simp only [mergeAddrs, if_pos h1]
        exact hb1
      · rw [nonEmptyIds_cons_skip env r rest h1]
        exact hb2
    · rw [nonEmptyIds_cons_keep env r rest h1] at hy
      by_cases h3 : info.ID = (env.splitAddr r).2
      · have hyrest : y ∈ nonEmptyIds env rest := by
          rcases List.mem_cons.mp hy with hcase | hcase
          · exact absurd (hcase.trans h3.symm) hyne
          · exact hcase
        obtain ⟨b, hb1, hb2, hb3⟩ := ih ⟨info.ID, info.Addrs ++ [(env.splitAddr r).1]⟩ y
          hID hyrest hyne
        refine ⟨b, ?_, ?_, hb3⟩
        · simp only [mergeAddrs, if_neg h1, if_neg hID, if_pos h3]
          exact hb1
        · rw [nonEmptyIds_cons_keep env r rest h1]
          exact List.mem_cons_of_mem _ hb2
      · refine ⟨(env.splitAddr r).2, ?_, ?_, fun hc => h3 hc.symm⟩
        · simp only [mergeAddrs, if_neg h1, if_neg hID, if_neg h3]
        · rw [nonEmptyIds_cons_keep env r rest h1]
          exact List.mem_cons_self _ _

/-- When the records carry two distinct identities and no identity is
adopted yet, the merge fails with the ambiguity error, naming two distinct
identities among the record identities. -/
theorem mergeAddrs_two_distinct (env : NetEnv) (m : Multiaddr) :
    ∀ (rs : List Multiaddr) (info : AddrInfo) (x y : String),
      info.ID = "" → x ∈ nonEmptyIds env rs → y ∈ nonEmptyIds env rs → x ≠ y →
      ∃ a b, mergeAddrs env m rs info = .error (.ambiguousAddr m a b) ∧
        a ∈ nonEmptyIds env rs ∧ b ∈ nonEmptyIds env rs ∧ a ≠ b := by
  intro rs
  induction rs with
  | nil =>
    intro info x y _ hx _ _
    simp [nonEmptyIds] at hx
  | cons r rest ih =>
    intro info x y hID hx hy hxy
    by_cases h1 : (env.splitAddr r).2 = ""
    · rw [nonEmptyIds_cons_skip env r rest h1] at hx hy
      obtain ⟨a, b, hab1, hab2, hab3, hab4⟩ := ih info x y hID hx hy hxy
      refine ⟨a, b, ?_, ?_, ?_, hab4⟩
      · simp only [mergeAddrs, if_pos h1]
        exact hab1
      · rw [nonEmptyIds_cons_skip env r rest h1]
        exact hab2
      · rw [nonEmptyIds_cons_skip env r rest h1]
        exact hab3
    · have hstep : mergeAddrs env m (r :: rest) info =
          mergeAddrs env m rest ⟨(env.splitAddr r).2, info.Addrs ++ [(env.splitAddr r).1]⟩ := by
        simp only [mergeAddrs, if_neg h1, if_pos hID]
      rw [nonEmptyIds_cons_keep env r rest h1] at hx hy
      have hconf : ∀ z : String, z ∈ nonEmptyIds env rest → z ≠ (env.splitAddr r).2 →
          ∃ a b, mergeAddrs env m (r :: rest) info = .error (.ambiguousAddr m a b) ∧
            a ∈ nonEmptyIds env (r :: rest) ∧ b ∈ nonEmptyIds env (r :: rest) ∧ a ≠ b := by
        intro z hz hzne
        obtain ⟨b, hb1, hb2, hb3⟩ := mergeAddrs_conflict env m rest
          ⟨(env.splitAddr r).2, info.Addrs ++ [(env.splitAddr r).1]⟩ z h1 hz hzne
        refine ⟨(env.splitAddr r).2, b, ?_, ?_, ?_, fun hc => hb3 hc.symm⟩
        · rw [hstep]
          exact hb1
        · rw [nonEmptyIds_cons_keep env r rest h1]
          exact List.mem_cons_self _ _
        · rw [nonEmptyIds_cons_keep env r rest h1]
          exact List.mem_cons_of_mem _ hb2
      by_cases hyi : y = (env.splitAddr r).2
      · have hxrest : x ∈ nonEmptyIds env rest := by
          rcases List.mem_cons.mp hx with hcase | hcase
          · exact absurd (hcase.trans hyi.symm) hxy
          · exact hcase
        exact hconf x hxrest fun hc => hxy (hc.trans hyi.symm)
      · have hyrest : y ∈ nonEmptyIds env rest := by
          rcases List.mem_cons.mp hy with hcase | hcase
          · exact absurd hcase hyi
          · exact hcase
        exact hconf y hyrest hyi

/-- C6 (amended): for an address that parses: if it directly encodes a
peer-and-address pair the resolver returns that decoding (no resolution
step is consulted); otherwise, with resolution results rs: zero results
fail with the ResolutionFailed error; two distinct identities among the
records fail with the AmbiguousAddress error naming two distinct candidate
identities drawn from the records; and on success the resolved transport
addresses of exactly the identity-carrying records are merged, in order,
under the single peer identity found (the first identity occurring;
records without an identity are skipped together with their addresses). -/
theorem parseIpfsAddr_resolution (env : NetEnv) (addr : String) (m : Multiaddr)
    (rs : List Multiaddr)
    (hp : env.parse addr = some m)
    (hr : env.resolve m = .ok rs) :
    (∀ info2, env.addrInfoFromP2pAddr m = .ok info2 → parseIpfsAddr env addr = .ok info2)
    ∧ ((∀ info2, env.addrInfoFromP2pAddr m ≠ .ok info2) →
        (rs = [] → parseIpfsAddr env addr = .error (.resolutionFailed m))
        ∧ (∀ x y, x ∈ nonEmptyIds env rs → y ∈ nonEmptyIds env rs → x ≠ y →
            ∃ a b, parseIpfsAddr env addr = .error (.ambiguousAddr m a b)
              ∧ a ∈ nonEmptyIds env rs ∧ b ∈ nonEmptyIds env rs ∧ a ≠ b)
        ∧ ∀ res, parseIpfsAddr env addr = .ok res →
            res.Addrs = goodAddrs env rs ∧ res.ID = (nonEmptyIds env rs).headD "") := by
  constructor
  · intro info2 h2
    unfold parseIpfsAddr
    simp only [hp, h2]
  · intro hd
    cases hinfo : env.addrInfoFromP2pAddr m with
    | ok info2 => exact absurd hinfo (hd info2)
    | error ed =>
      have hpi : parseIpfsAddr env addr =
          if rs = [] then .error (.resolutionFailed m) else mergeAddrs env m rs ⟨"", []⟩ := by
        unfold parseIpfsAddr
        simp only [hp, hinfo, hr]
      refine ⟨?_, ?_, ?_⟩
      · intro hnil
        rw [hpi, if_pos hnil]
      · intro x y hx hy hxy
        have hne : rs ≠ [] := by
          intro hc
          subst hc
          simp [nonEmptyIds] at hx
        rw [hpi, if_neg hne]
        exact mergeAddrs_two_distinct env m rs ⟨"", []⟩ x y rfl hx hy hxy
      · intro res hres
        rw [hpi] at hres
        by_cases hnil : rs = []
        · rw [if_pos hnil] at hres
          exact absurd hres (by simp)
        · rw [if_neg hnil] at hres
          have ha := mergeAddrs_addrs_of_ok env m rs ⟨"", []⟩ res hres
          have hi := mergeAddrs_id_of_ok env m rs ⟨"", []⟩ res hres
          simp only at ha hi
          exact ⟨by simpa using ha, by simpa using hi⟩

/-- Concrete environment for the C6 counterexample and witness: the
address /dnsaddr/ex does not decode directly and resolves to two records;
r1 carries identity X with transport address t1, r2 carries no identity
and transport address t2. -/
def envC6 : NetEnv :=
  ⟨fun s => some s, fun k => .error (.netError k),
   fun s => if s = "/dnsaddr/ex" then .ok ["r1", "r2"] else .ok [],
   fun r => if r = "r1" then (some "t1", "X")
            else if r = "r2" then (some "t2", "") else (some r, ""),
   fun _ _ _ => .error (.netError "down"), fun _ => .ok (), fun _ _ _ => .ok (),
   .ok (), fun n => List.range n⟩

/-- C6 (counterexample): resolving /dnsaddr/ex yields the two records r1
(identity X, address t1) and r2 (no identity, address t2); parseIpfsAddr
succeeds with only [t1] merged under X, not with all resolved transport
addresses [t1, t2] as the claim states: the identity-less record r2 is
skipped together with its address. -/
theorem parseIpfsAddr_merge_cex :
    envC6.resolve "/dnsaddr/ex" = .ok ["r1", "r2"] ∧
    parseIpfsAddr envC6 "/dnsaddr/ex" = .ok ⟨"X", [some "t1"]⟩ ∧
    ((["r1", "r2"] : List Multiaddr).map fun r => (envC6.splitAddr r).1)
      = [some "t1", some "t2"] ∧
    parseIpfsAddr envC6 "/dnsaddr/ex" ≠
      .ok ⟨"X", (["r1", "r2"] : List Multiaddr).map fun r => (envC6.splitAddr r).1⟩ := by
  refine ⟨by decide, by decide, by decide, by decide⟩

theorem parseIpfsAddr_resolution_witness :
    envC6.parse "/dnsaddr/ex" = some "/dnsaddr/ex" ∧
    envC6.resolve "/dnsaddr/ex" = .ok ["r1", "r2"] ∧
    (∀ info2, envC6.addrInfoFromP2pAddr "/dnsaddr/ex" ≠ .ok info2) ∧
    parseIpfsAddr envC6 "/dnsaddr/ex" = .ok ⟨"X", [some "t1"]⟩ ∧
    (AddrInfo.mk "X" [some "t1"]).Addrs = goodAddrs envC6 ["r1", "r2"] ∧
    (AddrInfo.mk "X" [some "t1"]).ID = (nonEmptyIds envC6 ["r1", "r2"]).headD "" :=
  ⟨rfl, rfl, fun info2 h => by simp [envC6] at h, by decide,
    (((parseIpfsAddr_resolution envC6 "/dnsaddr/ex" "/dnsaddr/ex" ["r1", "r2"] rfl rfl).2
        (fun info2 h => by simp [envC6] at h)).2.2 ⟨"X", [some "t1"]⟩ (by decide)).1,
    (((parseIpfsAddr_resolution envC6 "/dnsaddr/ex" "/dnsaddr/ex" ["r1", "r2"] rfl rfl).2
        (fun info2 h => by simp [envC6] at h)).2.2 ⟨"X", [some "t1"]⟩ (by decide)).2⟩
